import Mathlib

/-!
Verification of the conversation-metadata synchronization and ordering
subsystem of the chat application, as fixed in the timestamp bug-fix
report.  The embedding follows the three "AFTER" code snippets:

* Fix 1 (`src/services/conversationService.ts`): the Summary Synchronizer
  derives a single `updateTimestamp = message.createdAt` and writes all
  summary fields plus `updatedAt` from it in one
  `ChatModel.findByIdAndUpdate` call.
* Fix 2 (`src/database/repositories/chatRepo.ts`): the Ordering Query
  sorts with `$sort: { lastMessageTimestamp: -1, _id: -1 }`.  Following
  MongoDB semantics, a missing `lastMessageTimestamp` is treated as null,
  which in a descending sort is placed after every concrete timestamp.
  The spec's `_sequence` tiebreaker is the code's `_id` field.
* Fix 3 (`src/database/model/Chat.ts`): the pre-save middleware bumps
  `updatedAt = new Date()` only when the document is modified, is not
  new, and `lastMessageTimestamp` is not among the modified paths.

Instants are modelled as `Nat` (milliseconds); document ids as `Nat`.
-/

/-- A persisted message, as consumed by the Synchronizer.  `createdAt` is
the immutable creation instant stamped by the message-persistence layer. -/
structure Message where
  mid : Nat
  text : String
  createdAt : Nat
  sender : Nat
  msgType : String
deriving DecidableEq, Repr

/-- The Conversation Summary record (the `Chat` document's listing fields).
`lastMessageTimestamp` is `none` for a conversation with no messages yet.
`_id` is the stable, strictly increasing identifier assigned at creation:
it is the code's tiebreaker (the spec calls it `_sequence`). -/
structure ChatSummary where
  _id : Nat
  name : String
  lastMessage : Option Nat
  lastMessageText : Option String
  lastMessageTimestamp : Option Nat
  lastMessageSender : Option Nat
  lastMessageType : Option String
  updatedAt : Nat
deriving DecidableEq, Repr

/-- Fix 1 AFTER snippet: the update object passed to
`ChatModel.findByIdAndUpdate`.  A single `updateTimestamp` is derived
from `message.createdAt` and used for both `lastMessageTimestamp` and
`updatedAt`; the remaining preview fields come from the same message. -/
def updateConversationMetadata (chat : ChatSummary) (messageId : Nat)
    (previewText : String) (senderId : Nat) (messageType : String)
    (message : Message) : ChatSummary :=
  let updateTimestamp := message.createdAt
  { chat with
    lastMessage := some messageId
    lastMessageText := some previewText
    lastMessageTimestamp := some updateTimestamp
    lastMessageSender := some senderId
    lastMessageType := some messageType
    updatedAt := updateTimestamp }

/-- Look up a document by `_id` (the `findById` part of
`findByIdAndUpdate`). -/
def findById (store : List ChatSummary) (chatId : Nat) : Option ChatSummary :=
  store.find? (fun c => c._id == chatId)

/-- Replace the document with the given `_id` by `u`, leaving every other
document untouched (the single-document write of `findByIdAndUpdate`). -/
def setById : List ChatSummary → Nat → ChatSummary → List ChatSummary
  | [], _, _ => []
  | c :: cs, chatId, u =>
      if c._id == chatId then u :: cs else c :: setById cs chatId u

/-- The Synchronizer's store-level operation: one atomic
`findByIdAndUpdate(chatId, {...}, { new: true })`.  If the conversation is
absent the store is unchanged and `none` is returned (NotFound); otherwise
the whole record is replaced in a single step and the post-update document
is returned.  This path is a query-level update: Mongoose does not run the
`schema.pre('save')` middleware on it, so no hook appears here. -/
def conversationServiceUpdate (store : List ChatSummary) (chatId : Nat)
    (messageId : Nat) (previewText : String) (senderId : Nat)
    (messageType : String) (message : Message) :
    List ChatSummary × Option ChatSummary :=
  match findById store chatId with
  | none => (store, none)
  | some chat =>
      let u := updateConversationMetadata chat messageId previewText
        senderId messageType message
      (setById store chatId u, some u)

/-- A Mongoose document as seen by the pre-save middleware: the record
itself, the `isNew` flag, and the set of modified paths (`isModified()`
is true iff some path is modified; `isModified(p)` checks one path). -/
structure ChatDoc where
  doc : ChatSummary
  isNew : Bool
  modifiedPaths : List String
deriving DecidableEq, Repr

/-- `this.isModified()` — true iff any path was modified. -/
def isModified (d : ChatDoc) : Bool :=
  !d.modifiedPaths.isEmpty

/-- `this.isModified(path)` — true iff the given path was modified. -/
def isModifiedPath (d : ChatDoc) (path : String) : Bool :=
  d.modifiedPaths.contains path

/-- Fix 3 AFTER snippet: the `schema.pre('save')` middleware.  Only when
the document is modified and not new, and `lastMessageTimestamp` is not
being updated, does it assign `this.updatedAt = new Date()` (the ambient
instant `now`). -/
def preSaveHook (now : Nat) (d : ChatDoc) : ChatDoc :=
  if isModified d && !d.isNew then
    if !(isModifiedPath d "lastMessageTimestamp") then
      { d with doc := { d.doc with updatedAt := now } }
    else d
  else d

/-- An administrative rename: a save-path persist of an existing document
whose only modified path is `name`.  The pre-save middleware runs as part
of the persist. -/
def renameChat (now : Nat) (c : ChatSummary) (newName : String) : ChatSummary :=
  (preSaveHook now
    { doc := { c with name := newName }
      isNew := false
      modifiedPaths := ["name"] }).doc

/-- The Fix 2 sort key on raw key data: `ta/ia` precede-or-tie `tb/ib`
under `$sort: { lastMessageTimestamp: -1, _id: -1 }`.  Per MongoDB, a
missing timestamp compares as null, below every concrete instant, so in
the descending sort it is placed after all present timestamps. -/
def tsLe : Option Nat → Nat → Option Nat → Nat → Prop
  | some ta, ia, some tb, ib => tb < ta ∨ (ta = tb ∧ ib ≤ ia)
  | some _, _, none, _ => True
  | none, _, some _, _ => False
  | none, ia, none, ib => ib ≤ ia

instance : ∀ ta ia tb ib, Decidable (tsLe ta ia tb ib) := by
  intro ta ia tb ib
  cases ta <;> cases tb <;> unfold tsLe <;> infer_instance

/-- `keyLe a b`: summary `a` comes no later than `b` under the Fix 2 sort
`$sort: { lastMessageTimestamp: -1, _id: -1 }`. -/
def keyLe (a b : ChatSummary) : Prop :=
  tsLe a.lastMessageTimestamp a._id b.lastMessageTimestamp b._id

instance : DecidableRel keyLe := by
  intro a b
  unfold keyLe
  infer_instance

/-- Insert a summary into a list sorted by `keyLe`, keeping it sorted. -/
def insertSorted (a : ChatSummary) : List ChatSummary → List ChatSummary
  | [] => [a]
  | b :: bs => if keyLe a b then a :: b :: bs else b :: insertSorted a bs

/-- Sort a snapshot of summaries by the Fix 2 key. -/
def sortSummaries : List ChatSummary → List ChatSummary
  | [] => []
  | a :: as => insertSorted a (sortSummaries as)

/-- The Ordering Query: list the conversations of a snapshot in the order
produced by `$sort: { lastMessageTimestamp: -1, _id: -1 }`. -/
def listConversations (snapshot : List ChatSummary) : List ChatSummary :=
  sortSummaries snapshot

/-- All fields agree except possibly `updatedAt`. -/
def sameExceptUpdatedAt (a b : ChatSummary) : Prop :=
  a._id = b._id ∧ a.name = b.name ∧ a.lastMessage = b.lastMessage ∧
  a.lastMessageText = b.lastMessageText ∧
  a.lastMessageTimestamp = b.lastMessageTimestamp ∧
  a.lastMessageSender = b.lastMessageSender ∧
  a.lastMessageType = b.lastMessageType

/-- The two summaries carry the same sort key: same
`lastMessageTimestamp` and same `_id`. -/
def sameKey (a b : ChatSummary) : Prop :=
  a.lastMessageTimestamp = b.lastMessageTimestamp ∧ a._id = b._id

theorem tsLe_total (ta : Option Nat) (ia : Nat) (tb : Option Nat) (ib : Nat) :
    tsLe ta ia tb ib ∨ tsLe tb ib ta ia := by
  cases ta <;> cases tb <;> simp only [tsLe] <;> try tauto
  all_goals omega

theorem tsLe_trans {ta tb tc : Option Nat} {ia ib ic : Nat}
    (hab : tsLe ta ia tb ib) (hbc : tsLe tb ib tc ic) : tsLe ta ia tc ic := by
  cases ta <;> cases tb <;> cases tc <;>
    simp only [tsLe] at hab hbc ⊢ <;> omega

theorem tsLe_antisymm {ta tb : Option Nat} {ia ib : Nat}
    (hab : tsLe ta ia tb ib) (hba : tsLe tb ib ta ia) : ta = tb ∧ ia = ib := by
  cases ta <;> cases tb <;> simp only [tsLe] at hab hba <;>
    simp_all <;> omega

theorem keyLe_total (a b : ChatSummary) : keyLe a b ∨ keyLe b a :=
  tsLe_total _ _ _ _

theorem keyLe_trans {a b c : ChatSummary} (hab : keyLe a b) (hbc : keyLe b c) :
    keyLe a c :=
  tsLe_trans hab hbc

theorem keyLe_antisymm_key {a b : ChatSummary} (hab : keyLe a b)
    (hba : keyLe b a) : sameKey a b :=
  tsLe_antisymm hab hba

theorem mem_insertSorted {a x : ChatSummary} :
    ∀ {l : List ChatSummary}, x ∈ insertSorted a l ↔ x = a ∨ x ∈ l := by
  intro l
  induction l with
  | nil => simp [insertSorted]
  | cons b bs ih =>
      by_cases h : keyLe a b
      · rw [insertSorted, if_pos h]
        simp
      · rw [insertSorted, if_neg h]
        simp [ih]
        tauto

theorem insertSorted_perm (a : ChatSummary) :
    ∀ l : List ChatSummary, List.Perm (insertSorted a l) (a :: l) := by
  intro l
  induction l with
  | nil => exact List.Perm.refl _
  | cons b bs ih =>
      by_cases h : keyLe a b
      · rw [insertSorted, if_pos h]
      · rw [insertSorted, if_neg h]
        exact List.Perm.trans (ih.cons b) (List.Perm.swap a b bs)

theorem sortSummaries_perm :
    ∀ l : List ChatSummary, List.Perm (sortSummaries l) l := by
  intro l
  induction l with
  | nil => exact List.Perm.refl _
  | cons a as ih =>
      exact List.Perm.trans (insertSorted_perm a (sortSummaries as)) (ih.cons a)

theorem insertSorted_sorted {a : ChatSummary} :
    ∀ {l : List ChatSummary}, l.Sorted keyLe →
      (insertSorted a l).Sorted keyLe := by
  intro l
  induction l with
  | nil =>
      intro _
      simp [insertSorted]
  | cons b bs ih =>
      intro hs
      rw [List.sorted_cons] at hs
      by_cases h : keyLe a b
      · rw [insertSorted, if_pos h, List.sorted_cons]
        refine ⟨?_, ?_⟩
        · intro x hx
          rcases List.mem_cons.mp hx with hxb | hxbs
          · subst hxb
            exact h
          · exact keyLe_trans h (hs.1 x hxbs)
        · rw [List.sorted_cons]
          exact hs
      · rw [insertSorted, if_neg h, List.sorted_cons]
        refine ⟨?_, ih hs.2⟩
        intro x hx
        rcases mem_insertSorted.mp hx with hxa | hxbs
        · subst hxa
          rcases keyLe_total x b with hxb | hbx
          · exact absurd hxb h
          · exact hbx
        · exact hs.1 x hxbs

theorem sortSummaries_sorted : ∀ l : List ChatSummary,
    (sortSummaries l).Sorted keyLe := by
  intro l
  induction l with
  | nil => simp [sortSummaries]
  | cons a as ih => exact insertSorted_sorted ih

theorem keyLe_congr {a a' b b' : ChatSummary} (ha : sameKey a a')
    (hb : sameKey b b') : keyLe a b ↔ keyLe a' b' := by
  unfold keyLe
  rw [ha.1, ha.2, hb.1, hb.2]

theorem sameExceptUpdatedAt_sameKey {a b : ChatSummary}
    (h : sameExceptUpdatedAt a b) : sameKey a b :=
  ⟨h.2.2.2.2.1, h.1⟩

theorem insertSorted_forall₂ {R : ChatSummary → ChatSummary → Prop}
    (hR : ∀ {x x' y y' : ChatSummary}, R x x' → R y y' →
      (keyLe x y ↔ keyLe x' y'))
    {a a' : ChatSummary} (haa : R a a') :
    ∀ {l l' : List ChatSummary}, List.Forall₂ R l l' →
      List.Forall₂ R (insertSorted a l) (insertSorted a' l') := by
  intro l l' h
  induction h with
  | nil => exact List.Forall₂.cons haa List.Forall₂.nil
  | cons hbb htail ih =>
      rename_i b b' bs bs'
      by_cases hk : keyLe a b
      · rw [insertSorted, if_pos hk, insertSorted, if_pos ((hR haa hbb).mp hk)]
        exact List.Forall₂.cons haa (List.Forall₂.cons hbb htail)
      · rw [insertSorted, if_neg hk, insertSorted,
          if_neg (fun hk' => hk ((hR haa hbb).mpr hk'))]
        exact List.Forall₂.cons hbb ih

theorem sortSummaries_forall₂ {R : ChatSummary → ChatSummary → Prop}
    (hR : ∀ {x x' y y' : ChatSummary}, R x x' → R y y' →
      (keyLe x y ↔ keyLe x' y')) :
    ∀ {s s' : List ChatSummary}, List.Forall₂ R s s' →
      List.Forall₂ R (sortSummaries s) (sortSummaries s') := by
  intro s s' h
  induction h with
  | nil => exact List.Forall₂.nil
  | cons haa htail ih => exact insertSorted_forall₂ hR haa ih

theorem forall₂_sameKey_map_id :
    ∀ {l l' : List ChatSummary}, List.Forall₂ sameKey l l' →
      l.map (fun c => c._id) = l'.map (fun c => c._id) := by
  intro l l' h
  induction h with
  | nil => rfl
  | cons hab _ ih =>
      simp only [List.map_cons, ih, hab.2]

/-- Strict version of the Fix 2 sort key: used to show the key is a total
order with no unresolved ties when `_id`s are distinct. -/
def keyLt (a b : ChatSummary) : Prop :=
  keyLe a b ∧ a._id ≠ b._id

instance : IsAntisymm ChatSummary keyLt where
  antisymm _ _ hab hba := absurd (keyLe_antisymm_key hab.1 hba.1).2 hab.2

theorem sorted_keyLt_of_nodup {l : List ChatSummary}
    (hs : l.Sorted keyLe) (hn : (l.map (fun c => c._id)).Nodup) :
    l.Sorted keyLt := by
  have hp : l.Pairwise (fun a b : ChatSummary => a._id ≠ b._id) :=
    List.pairwise_map.mp hn
  exact (hs.and hp).imp (fun h => ⟨h.1, h.2⟩)

theorem sorted_perm_unique {s l₁ l₂ : List ChatSummary}
    (hn : (s.map (fun c => c._id)).Nodup)
    (h₁ : List.Perm l₁ s) (hs₁ : l₁.Sorted keyLe)
    (h₂ : List.Perm l₂ s) (hs₂ : l₂.Sorted keyLe) : l₁ = l₂ := by
  have hn₁ : (l₁.map (fun c => c._id)).Nodup :=
    ((h₁.map (fun c => c._id)).nodup_iff).mpr hn
  have hn₂ : (l₂.map (fun c => c._id)).Nodup :=
    ((h₂.map (fun c => c._id)).nodup_iff).mpr hn
  exact List.eq_of_perm_of_sorted (h₁.trans h₂.symm)
    (sorted_keyLt_of_nodup hs₁ hn₁) (sorted_keyLt_of_nodup hs₂ hn₂)

theorem preSaveHook_frame (now : Nat) (d : ChatDoc) :
    (preSaveHook now d).doc._id = d.doc._id ∧
    (preSaveHook now d).doc.name = d.doc.name ∧
    (preSaveHook now d).doc.lastMessage = d.doc.lastMessage ∧
    (preSaveHook now d).doc.lastMessageText = d.doc.lastMessageText ∧
    (preSaveHook now d).doc.lastMessageTimestamp
      = d.doc.lastMessageTimestamp ∧
    (preSaveHook now d).doc.lastMessageSender = d.doc.lastMessageSender ∧
    (preSaveHook now d).doc.lastMessageType = d.doc.lastMessageType := by
  unfold preSaveHook
  split
  · split <;> simp
  · simp

theorem renameChat_updatedAt (now : Nat) (c : ChatSummary)
    (newName : String) : (renameChat now c newName).updatedAt = now := by
  simp [renameChat, preSaveHook, isModified, isModifiedPath]

theorem renameChat_frame (now : Nat) (c : ChatSummary) (newName : String) :
    (renameChat now c newName).lastMessageTimestamp
      = c.lastMessageTimestamp ∧
    (renameChat now c newName)._id = c._id ∧
    (renameChat now c newName).name = newName := by
  simp [renameChat, preSaveHook, isModified, isModifiedPath]

/-- Claim C1: every message-triggered Synchronizer update leaves
`lastMessageTimestamp == updatedAt`, and both fields are set from the one
instant `message.createdAt` — the update derives no fresh clock reading. -/
theorem sync_timestamp_coherence (chat : ChatSummary) (messageId : Nat)
    (previewText : String) (senderId : Nat) (messageType : String)
    (message : Message) :
    (updateConversationMetadata chat messageId previewText senderId
      messageType message).lastMessageTimestamp
      = some (updateConversationMetadata chat messageId previewText senderId
          messageType message).updatedAt ∧
    (updateConversationMetadata chat messageId previewText senderId
      messageType message).updatedAt = message.createdAt := by
  exact ⟨rfl, rfl⟩

/-- Claim C2 counterexample: the Fix 1 snippet writes
`lastMessageTimestamp: updateTimestamp` with
`updateTimestamp = message.createdAt` — there is no `max(current, t)`.
Applying a delayed message with `createdAt = 50` to a conversation whose
stored `lastMessageTimestamp` is `100` moves the ordering field backward
to `50`, not to `max(100, 50) = 100`. -/
theorem sync_no_max_counterexample :
    let before : ChatSummary :=
      { _id := 1, name := "A", lastMessage := some 10
        lastMessageText := some "x", lastMessageTimestamp := some 100
        lastMessageSender := some 7, lastMessageType := some "text"
        updatedAt := 100 }
    let m : Message :=
      { mid := 11, text := "old", createdAt := 50, sender := 8
        msgType := "text" }
    let after := updateConversationMetadata before 11 "old" 8 "text" m
    before.lastMessageTimestamp = some 100 ∧
    after.lastMessageTimestamp = some 50 ∧
    after.lastMessageTimestamp ≠ some (max 100 50) := by
  exact ⟨rfl, rfl, by decide⟩

/-- Claim C2 amended: the Synchronizer writes `message.createdAt` itself
to `lastMessageTimestamp` (no `max` with the stored value), so the field
is non-decreasing only across messages applied in non-decreasing
`createdAt` order; the update itself always occurs.  An out-of-order
older message moves `lastMessageTimestamp` backward. -/
theorem sync_writes_createdAt (chat : ChatSummary) (messageId : Nat)
    (previewText : String) (senderId : Nat) (messageType : String)
    (message : Message) (t₀ : Nat)
    (hstored : chat.lastMessageTimestamp = some t₀)
    (horder : t₀ ≤ message.createdAt) :
    (updateConversationMetadata chat messageId previewText senderId
      messageType message).lastMessageTimestamp = some message.createdAt ∧
    ∃ t', (updateConversationMetadata chat messageId previewText senderId
        messageType message).lastMessageTimestamp = some t' ∧ t₀ ≤ t' :=
  ⟨rfl, message.createdAt, rfl, horder⟩

theorem sync_writes_createdAt_witness :
    let chat : ChatSummary :=
      { _id := 1, name := "A", lastMessage := some 10
        lastMessageText := some "x", lastMessageTimestamp := some 40
        lastMessageSender := some 7, lastMessageType := some "text"
        updatedAt := 40 }
    let m : Message :=
      { mid := 12, text := "new", createdAt := 90, sender := 8
        msgType := "text" }
    (updateConversationMetadata chat 12 "new" 8 "text" m).lastMessageTimestamp
      = some m.createdAt ∧
    ∃ t', (updateConversationMetadata chat 12 "new" 8 "text" m).lastMessageTimestamp
        = some t' ∧ 40 ≤ t' := by
  exact sync_writes_createdAt _ 12 "new" 8 "text" _ 40 rfl (by decide)

instance (a b : ChatSummary) : Decidable (sameExceptUpdatedAt a b) := by
  unfold sameExceptUpdatedAt
  infer_instance

instance (a b : ChatSummary) : Decidable (sameKey a b) := by
  unfold sameKey
  infer_instance

/-- Claim C3: the Ordering Query sorts by exactly the Fix 2 key —
`lastMessageTimestamp` descending with the `_id` tiebreaker descending
(the spec's `_sequence`) — and `updatedAt` never influences the result:
its output is a `keyLe`-sorted permutation of the snapshot, and two
snapshots that differ only in `updatedAt` values list the same
conversations in the same positions. -/
theorem ordering_ignores_updatedAt (s₁ s₂ : List ChatSummary)
    (h : List.Forall₂ sameExceptUpdatedAt s₁ s₂) :
    List.Perm (listConversations s₁) s₁ ∧
    (listConversations s₁).Sorted keyLe ∧
    List.Forall₂ sameExceptUpdatedAt (listConversations s₁)
      (listConversations s₂) := by
  refine ⟨sortSummaries_perm s₁, sortSummaries_sorted s₁, ?_⟩
  exact sortSummaries_forall₂
    (fun hx hy => keyLe_congr (sameExceptUpdatedAt_sameKey hx)
      (sameExceptUpdatedAt_sameKey hy)) h

theorem ordering_ignores_updatedAt_witness :
    let c₁ : ChatSummary :=
      { _id := 2, name := "A", lastMessage := some 10
        lastMessageText := some "x", lastMessageTimestamp := some 100
        lastMessageSender := some 7, lastMessageType := some "text"
        updatedAt := 100 }
    let c₂ : ChatSummary :=
      { _id := 3, name := "B", lastMessage := none
        lastMessageText := none, lastMessageTimestamp := none
        lastMessageSender := none, lastMessageType := none
        updatedAt := 400 }
    List.Perm (listConversations [c₁, c₂]) [c₁, c₂] ∧
    (listConversations [c₁, c₂]).Sorted keyLe ∧
    List.Forall₂ sameExceptUpdatedAt (listConversations [c₁, c₂])
      (listConversations [{ c₁ with updatedAt := 900 },
        { c₂ with updatedAt := 1 }]) := by
  exact ordering_ignores_updatedAt _ _
    (List.Forall₂.cons (by decide) (List.Forall₂.cons (by decide)
      List.Forall₂.nil))

/-- Claim C5: over a fixed snapshot whose `_id`s are distinct, the Fix 2
sort key resolves every tie (including ties on equal
`lastMessageTimestamp` values), so the sorted sequence is unique: any
`keyLe`-sorted permutation of the snapshot is exactly the Ordering
Query's output, hence two independent calls return identical sequences. -/
theorem ordering_deterministic (s l : List ChatSummary)
    (hn : (s.map (fun c => c._id)).Nodup)
    (hp : List.Perm l s) (hs : l.Sorted keyLe) :
    l = listConversations s :=
  sorted_perm_unique hn hp hs (sortSummaries_perm s) (sortSummaries_sorted s)

theorem ordering_deterministic_witness :
    let c₁ : ChatSummary :=
      { _id := 9, name := "A", lastMessage := some 10
        lastMessageText := some "x", lastMessageTimestamp := some 100
        lastMessageSender := some 7, lastMessageType := some "text"
        updatedAt := 100 }
    let c₂ : ChatSummary :=
      { _id := 4, name := "B", lastMessage := some 11
        lastMessageText := some "y", lastMessageTimestamp := some 100
        lastMessageSender := some 8, lastMessageType := some "text"
        updatedAt := 250 }
    [c₁, c₂] = listConversations [c₁, c₂] := by
  exact ordering_deterministic _ _ (by decide) (List.Perm.refl _) (by decide)

/-- Claim C6: in the Ordering Query's output, every conversation without
a `lastMessageTimestamp` (no messages yet) comes after every conversation
that has one, and the no-message conversations are ordered among
themselves by `_id` descending; `updatedAt` plays no role (the statement
holds for every snapshot, whatever its `updatedAt` values). -/
theorem ordering_missing_timestamp_last (s : List ChatSummary) :
    (listConversations s).Pairwise (fun a b =>
      (a.lastMessageTimestamp = none → b.lastMessageTimestamp = none) ∧
      (a.lastMessageTimestamp = none → b.lastMessageTimestamp = none →
        b._id ≤ a._id)) := by
  refine List.Pairwise.imp ?_ (sortSummaries_sorted s)
  intro a b hab
  unfold keyLe at hab
  constructor
  · intro ha
    cases hb : b.lastMessageTimestamp with
    | none => rfl
    | some tb =>
        rw [ha, hb] at hab
        simp only [tsLe] at hab
  · intro ha hb
    rw [ha, hb] at hab
    simp only [tsLe] at hab
    exact hab

/-- Claim C7: the Synchronizer update is idempotent — applying the same
message event twice in succession yields exactly the state reached by
applying it once. -/
theorem sync_idempotent (chat : ChatSummary) (messageId : Nat)
    (previewText : String) (senderId : Nat) (messageType : String)
    (message : Message) :
    updateConversationMetadata
      (updateConversationMetadata chat messageId previewText senderId
        messageType message)
      messageId previewText senderId messageType message
      = updateConversationMetadata chat messageId previewText senderId
          messageType message := by
  rfl

/-- Claim C8: a rename — a save-path persist with no message involved —
changes `updatedAt` (to the persist instant `now`) but leaves
`lastMessageTimestamp` unchanged, and renaming a conversation inside a
snapshot leaves every conversation's position in the Ordering Query's
output unchanged. -/
theorem rename_independence (now : Nat) (c : ChatSummary)
    (newName : String) (s : List ChatSummary)
    (hnow : now ≠ c.updatedAt) :
    (renameChat now c newName).updatedAt ≠ c.updatedAt ∧
    (renameChat now c newName).lastMessageTimestamp
      = c.lastMessageTimestamp ∧
    (listConversations (s.map (fun x =>
        if x._id = c._id then renameChat now x newName else x))).map
        (fun x => x._id)
      = (listConversations s).map (fun x => x._id) := by
  refine ⟨?_, (renameChat_frame now c newName).1, ?_⟩
  · rw [renameChat_updatedAt]
    exact hnow
  · have hf : List.Forall₂ sameKey
        (s.map (fun x =>
          if x._id = c._id then renameChat now x newName else x)) s := by
      rw [List.forall₂_map_left_iff]
      rw [List.forall₂_same]
      intro x _
      by_cases hx : x._id = c._id
      · rw [if_pos hx]
        exact ⟨(renameChat_frame now x newName).1,
          (renameChat_frame now x newName).2.1⟩
      · rw [if_neg hx]
        exact ⟨rfl, rfl⟩
    exact forall₂_sameKey_map_id
      (sortSummaries_forall₂ (fun hx hy => keyLe_congr hx hy) hf)

theorem rename_independence_witness :
    let c₁ : ChatSummary :=
      { _id := 2, name := "A", lastMessage := some 10
        lastMessageText := some "x", lastMessageTimestamp := some 100
        lastMessageSender := some 7, lastMessageType := some "text"
        updatedAt := 100 }
    let c₂ : ChatSummary :=
      { _id := 3, name := "B", lastMessage := some 11
        lastMessageText := some "y", lastMessageTimestamp := some 200
        lastMessageSender := some 8, lastMessageType := some "text"
        updatedAt := 200 }
    (renameChat 500 c₁ "renamed").updatedAt ≠ c₁.updatedAt ∧
    (renameChat 500 c₁ "renamed").lastMessageTimestamp
      = c₁.lastMessageTimestamp ∧
    (listConversations ([c₁, c₂].map (fun x =>
        if x._id = c₁._id then renameChat 500 x "renamed" else x))).map
        (fun x => x._id)
      = (listConversations [c₁, c₂]).map (fun x => x._id) := by
  exact rename_independence 500 _ "renamed" _ (by decide)

/-- Claim C4 counterexample: the claim asserts that *every* persist that
does not modify `lastMessageTimestamp` gets `updatedAt = now()` from the
guard.  But `schema.pre('save')` first checks
`this.isModified() && !this.isNew`: the initial save of a new document
(`isNew = true`, here with only `name` among its modified paths) does not
modify `lastMessageTimestamp`, yet the guard leaves `updatedAt` at its
explicit value `0` instead of assigning the persist instant `5`. -/
theorem guard_new_doc_counterexample :
    let c : ChatSummary :=
      { _id := 1, name := "A", lastMessage := none
        lastMessageText := none, lastMessageTimestamp := none
        lastMessageSender := none, lastMessageType := none
        updatedAt := 0 }
    let d : ChatDoc := { doc := c, isNew := true, modifiedPaths := ["name"] }
    isModifiedPath d "lastMessageTimestamp" = false ∧
    (preSaveHook 5 d).doc.updatedAt = 0 ∧
    (preSaveHook 5 d).doc.updatedAt ≠ 5 := by
  exact ⟨rfl, rfl, by decide⟩

/-- Claim C4 amended: the guard assigns `updatedAt = now()` exactly when
the persisted document is modified, is not newly created, and does not
modify `lastMessageTimestamp`; in every other case — in particular
whenever the persist modifies `lastMessageTimestamp`, alone or together
with unrelated fields — it leaves `updatedAt` exactly as already set
(deferring to the Synchronizer's value on message-triggered updates). -/
theorem guard_updatedAt_characterization (now : Nat) (d : ChatDoc) :
    (preSaveHook now d).doc.updatedAt =
      if isModified d = true ∧ d.isNew = false ∧
          isModifiedPath d "lastMessageTimestamp" = false
      then now
      else d.doc.updatedAt := by
  cases hm : isModified d <;> cases hn : d.isNew <;>
    cases hp : isModifiedPath d "lastMessageTimestamp" <;>
    simp [preSaveHook, hm, hn, hp]

theorem mem_setById_of_ne {u x : ChatSummary} {chatId : Nat} :
    ∀ {store : List ChatSummary}, x ∈ store → x._id ≠ chatId →
      x ∈ setById store chatId u := by
  intro store
  induction store with
  | nil => intro hx; exact absurd hx (List.not_mem_nil x)
  | cons c cs ih =>
      intro hx hne
      by_cases hc : (c._id == chatId) = true
      · rw [setById, if_pos hc]
        rcases List.mem_cons.mp hx with hxc | hxcs
        · subst hxc
          exact absurd (eq_of_beq hc) hne
        · exact List.mem_cons_of_mem u hxcs
      · rw [setById, if_neg hc]
        rcases List.mem_cons.mp hx with hxc | hxcs
        · subst hxc
          exact List.mem_cons_self x _
        · exact List.mem_cons_of_mem c (ih hxcs hne)

/-- Claim C9: the Synchronizer's store operation is all-or-nothing.
Either the conversation is absent and the store is returned unchanged
with a NotFound result (`none`), or there is a single post-update
document `u` carrying all six summary fields (`lastMessage`,
`lastMessageText`, `lastMessageTimestamp`, `lastMessageSender`,
`lastMessageType`, `updatedAt`) of the new message at once — satisfying
invariant I1 — the store is the prior store with exactly that one
document replaced in one step, and every other conversation's record
survives untouched.  No state mixing old and new fields exists. -/
theorem sync_all_or_nothing (store : List ChatSummary)
    (chatId messageId : Nat) (previewText : String) (senderId : Nat)
    (messageType : String) (message : Message) :
    let r := conversationServiceUpdate store chatId messageId previewText
      senderId messageType message
    (r.2 = none ∧ r.1 = store) ∨
    (∃ u, r.2 = some u ∧
      u.lastMessage = some messageId ∧
      u.lastMessageText = some previewText ∧
      u.lastMessageTimestamp = some message.createdAt ∧
      u.lastMessageSender = some senderId ∧
      u.lastMessageType = some messageType ∧
      u.updatedAt = message.createdAt ∧
      u.lastMessageTimestamp = some u.updatedAt ∧
      r.1 = setById store chatId u ∧
      (∀ x ∈ store, x._id ≠ chatId → x ∈ r.1)) := by
  intro r
  have hr : r = conversationServiceUpdate store chatId messageId
      previewText senderId messageType message := rfl
  rw [hr]
  unfold conversationServiceUpdate
  cases h : findById store chatId with
  | none =>
      exact Or.inl ⟨rfl, rfl⟩
  | some chat =>
      refine Or.inr ⟨updateConversationMetadata chat messageId previewText
        senderId messageType message,
        rfl, rfl, rfl, rfl, rfl, rfl, rfl, rfl, rfl, ?_⟩
      intro x hx hne
      exact mem_setById_of_ne hx hne

/-- Claim C10: the guard's `updatedAt` re-stamp applies only to documents
that are modified and not newly created — on any other save (in
particular the initial creation, `isNew = true`) the hook is the
identity — and the Synchronizer's `findByIdAndUpdate` path is a
query-level update that never runs the `schema.pre('save')` middleware:
its post-update document keeps `updatedAt` exactly as explicitly written,
namely `message.createdAt`. -/
theorem guard_scope_and_sync_path (now : Nat) (d : ChatDoc)
    (store : List ChatSummary) (chatId messageId : Nat)
    (previewText : String) (senderId : Nat) (messageType : String)
    (message : Message) (chat : ChatSummary)
    (hg : isModified d = false ∨ d.isNew = true)
    (hfind : findById store chatId = some chat) :
    preSaveHook now d = d ∧
    (conversationServiceUpdate store chatId messageId previewText senderId
        messageType message).2
      = some (updateConversationMetadata chat messageId previewText
          senderId messageType message) ∧
    (updateConversationMetadata chat messageId previewText senderId
        messageType message).updatedAt = message.createdAt := by
  refine ⟨?_, ?_, rfl⟩
  · unfold preSaveHook
    rcases hg with h | h <;> simp [h]
  · unfold conversationServiceUpdate
    rw [hfind]

theorem guard_scope_and_sync_path_witness :
    let c : ChatSummary :=
      { _id := 2, name := "A", lastMessage := some 10
        lastMessageText := some "x", lastMessageTimestamp := some 100
        lastMessageSender := some 7, lastMessageType := some "text"
        updatedAt := 100 }
    let d : ChatDoc := { doc := c, isNew := true, modifiedPaths := ["name"] }
    let m : Message :=
      { mid := 12, text := "hi", createdAt := 300, sender := 8
        msgType := "text" }
    preSaveHook 5 d = d ∧
    (conversationServiceUpdate [c] 2 12 "hi" 8 "text" m).2
      = some (updateConversationMetadata c 12 "hi" 8 "text" m) ∧
    (updateConversationMetadata c 12 "hi" 8 "text" m).updatedAt
      = m.createdAt := by
  exact guard_scope_and_sync_path 5 _ [_] 2 12 "hi" 8 "text" _ _
    (Or.inr rfl) rfl
